import Mathlib

/-!
Shallow embedding of the SilicaSense browser application (src/App.tsx and
src/types.ts) in Lean 4.

JavaScript strings are modelled as Lean `String`s; JavaScript numbers as
`JSNum` (NaN, signed infinity, or an exact rational — IEEE rounding is not
modelled, which is irrelevant to the claims, all of which are about which
string gets parsed and how statuses and state fields are derived).
JavaScript string methods used by the app (`split(',')`, `trim`,
`toUpperCase`, `includes`, `slice(-20)`, `parseFloat`) are given explicit
executable models below.  `toUpperCase` is modelled by the ASCII simple
case map `Char.toUpper`; the status tokens compared against ("WET",
"MIXED") are ASCII, so this agrees with the JavaScript behaviour on all
payloads made of characters whose upper-casing is the ASCII one.
-/

/-- Model of a JavaScript number as far as the app needs it: NaN, a signed
infinity, or an exact rational value. -/
inductive JSNum where
  | nan : JSNum
  | inf : Bool → JSNum   -- `inf true` is -Infinity, `inf false` is +Infinity
  | num : Rat → JSNum
  deriving DecidableEq, Repr

/-- Code points treated as whitespace by JavaScript `trim` and skipped by
`parseFloat` (WhiteSpace plus LineTerminator): tab 9, line feed 10,
vertical tab 11, form feed 12, carriage return 13, space 32, NBSP 0xa0,
and the Unicode space separators and line terminators. -/
def isJSWhitespaceNat (n : Nat) : Bool :=
  n == 9 || n == 10 || n == 11 || n == 12 || n == 13 || n == 32 ||
  n == 0xa0 || n == 0x1680 ||
  (decide (0x2000 ≤ n) && decide (n ≤ 0x200a)) ||
  n == 0x2028 || n == 0x2029 || n == 0x202f ||
  n == 0x205f || n == 0x3000 || n == 0xfeff

/-- Whether a character is JavaScript whitespace. -/
def isJSWhitespace (c : Char) : Bool :=
  isJSWhitespaceNat c.toNat

/-- JavaScript `String.prototype.trim` on a character list: remove leading
and trailing whitespace. -/
def jsTrimList (l : List Char) : List Char :=
  ((l.dropWhile isJSWhitespace).reverse.dropWhile isJSWhitespace).reverse

/-- JavaScript `String.prototype.trim`. -/
def jsTrim (s : String) : String :=
  String.mk (jsTrimList s.data)

/-- JavaScript `String.prototype.toUpperCase`, restricted to the ASCII
simple case map (see the header comment). -/
def jsToUpperCase (s : String) : String :=
  String.mk (s.data.map Char.toUpper)

/-- JavaScript `String.prototype.split` with a single-character separator:
split at every occurrence of the separator; the empty string yields a
single empty field. -/
def splitCharList (sep : Char) : List Char → List (List Char)
  | [] => [[]]
  | c :: cs =>
    let r := splitCharList sep cs
    if c = sep then [] :: r
    else
      match r with
      | [] => [[c]]          -- unreachable: the result is always nonempty
      | h :: t => (c :: h) :: t

/-- The app's `dataString.split(',')`. -/
def jsSplitComma (s : String) : List String :=
  (splitCharList ',' s.data).map String.mk

/-- Decides whether `hay` starts with `needle`. -/
def listStartsWith : List Char → List Char → Bool
  | _, [] => true
  | [], _ :: _ => false
  | a :: as, b :: bs => a = b && listStartsWith as bs

/-- Decides whether `needle` occurs contiguously inside `hay`. -/
def listContainsSub (needle : List Char) : List Char → Bool
  | [] => listStartsWith [] needle
  | c :: t => listStartsWith (c :: t) needle || listContainsSub needle t

/-- JavaScript `String.prototype.includes` (case-sensitive substring
containment). -/
def jsIncludes (s needle : String) : Bool :=
  listContainsSub needle.data s.data

/-- Numeric value of a list of decimal digit characters. -/
def digitsVal (ds : List Char) : Nat :=
  ds.foldl (fun a c => 10 * a + (c.toNat - '0'.toNat)) 0

/-- Value of a JavaScript `ExponentPart` suffix: optional sign then digits;
if no digit follows, the exponent candidate is not part of the literal and
contributes 0. -/
def expVal (l : List Char) : Int :=
  let p : Int × List Char :=
    match l with
    | '+' :: r => (1, r)
    | '-' :: r => (-1, r)
    | _ => (1, l)
  let ds := p.2.takeWhile Char.isDigit
  if ds.isEmpty then 0 else p.1 * (digitsVal ds : Int)

/-- Scale a rational by an integer power of ten. -/
def scale10 (q : Rat) (e : Int) : Rat :=
  if 0 ≤ e then q * (10 : Rat) ^ e.toNat else q / (10 : Rat) ^ (-e).toNat

/-- Parse the longest `StrUnsignedDecimalLiteral` prefix of `l` (digits,
optional fraction, optional exponent), as JavaScript `parseFloat` does
after sign handling; `none` when no valid prefix exists. -/
def parseDec (l : List Char) : Option Rat :=
  let d1 := l.takeWhile Char.isDigit
  let r1 := l.drop d1.length
  let fr : List Char × List Char :=
    match r1 with
    | '.' :: rest => (rest.takeWhile Char.isDigit,
                      rest.drop (rest.takeWhile Char.isDigit).length)
    | _ => ([], r1)
  if d1.isEmpty && fr.1.isEmpty then none
  else
    let mantissa : Rat :=
      (digitsVal d1 : Rat) + (digitsVal fr.1 : Rat) / (10 : Rat) ^ fr.1.length
    let e : Int :=
      match fr.2 with
      | 'e' :: rest => expVal rest
      | 'E' :: rest => expVal rest
      | _ => 0
    some (scale10 mantissa e)

/-- JavaScript `parseFloat`: skip leading whitespace, read an optional
sign, then `Infinity` or a decimal literal prefix; NaN when nothing
parses. -/
def parseFloat (s : String) : JSNum :=
  let l := s.data.dropWhile isJSWhitespace
  let p : Bool × List Char :=
    match l with
    | '-' :: r => (true, r)
    | '+' :: r => (false, r)
    | _ => (false, l)
  if p.2.take 8 = "Infinity".data then JSNum.inf p.1
  else
    match parseDec p.2 with
    | none => JSNum.nan
    | some q => JSNum.num (if p.1 then -q else q)

/-- The app's `parseFloat(dataString) || 0`: NaN is falsy and replaced by
0; a zero result is replaced by the (equal) literal 0, so on non-NaN
values the expression is the identity in this model. -/
def jsOrZero : JSNum → JSNum
  | JSNum.nan => JSNum.num 0
  | x => x

/-- JavaScript `array.slice(-20)`: the most recent at most 20 elements. -/
def jsSliceLast20 {α : Type} (l : List α) : List α :=
  l.drop (l.length - 20)

/-- Moisture status as used by src/App.tsx.  The enum declared in the
types file lists only DRY, WET and UNKNOWN, but App.tsx additionally
references `MoistureStatus.MIXED` throughout (classification, cadence,
colours), so the status space the app computes with has these four
values. -/
inductive MoistureStatus where
  | DRY : MoistureStatus
  | WET : MoistureStatus
  | MIXED : MoistureStatus
  | UNKNOWN : MoistureStatus
  deriving DecidableEq, Repr

/-- Connection status (a string union in the source). -/
inductive ConnectionStatus where
  | disconnected : ConnectionStatus
  | connecting : ConnectionStatus
  | connected : ConnectionStatus
  deriving DecidableEq, Repr

/-- Data content of the `BluetoothDevice` interface (methods omitted). -/
structure BluetoothDevice where
  id : String
  name : Option String
  deriving DecidableEq, Repr

/-- Data content of the `BluetoothRemoteGATTCharacteristic` interface. -/
structure BluetoothRemoteGATTCharacteristic where
  uuid : String
  deriving DecidableEq, Repr

/-- One reading: the `Reading` interface.  The `id` is `Date.now()`
stringified and the timestamp is the current time, both supplied to
`processData` as the `now` parameter. -/
structure Reading where
  id : String
  timestamp : Nat
  temperature : JSNum
  moisture : MoistureStatus
  deriving DecidableEq, Repr

/-- The React component state of `App` (the `useState` hooks and the two
refs). -/
structure AppState where
  connectionStatus : ConnectionStatus
  readings : List Reading
  latestReading : Option Reading
  notification : Option String
  nextUpdateIn : Int
  isSimulationMode : Bool
  deviceRef : Option BluetoothDevice
  characteristicRef : Option BluetoothRemoteGATTCharacteristic
  deriving DecidableEq, Repr

/-- The initial component state (the `useState` initial values and null
refs). -/
def initialState : AppState :=
  { connectionStatus := ConnectionStatus.disconnected
    readings := []
    latestReading := none
    notification := none
    nextUpdateIn := 0
    isSimulationMode := false
    deviceRef := none
    characteristicRef := none }

/-- Browser environment facts consulted by `triggerNotification`:
whether the Notification API exists, whether permission was granted,
and whether `navigator.vibrate` is available. -/
structure Env where
  notificationApiAvailable : Bool
  notificationPermissionGranted : Bool
  vibrateSupported : Bool
  deriving DecidableEq, Repr

/-- An environment with every alert channel available. -/
def fullEnv : Env :=
  { notificationApiAvailable := true
    notificationPermissionGranted := true
    vibrateSupported := true }

/-- Observable side effects of one `triggerNotification` call: the body of
the OS notification shown, if any, and the vibration pattern passed to
`navigator.vibrate`, if any. -/
structure Effects where
  osNotification : Option String
  vibratePattern : Option (List Nat)
  deriving DecidableEq, Repr

/-- No side effects. -/
def noEffects : Effects :=
  { osNotification := none, vibratePattern := none }

/-- The `triggerNotification` helper: set the in-app banner message, show
an OS notification when the API is available and permitted, and vibrate
when supported. -/
def triggerNotification (env : Env) (message : String) (st : AppState) :
    AppState × Effects :=
  ({ st with notification := some message },
   { osNotification :=
       if env.notificationApiAvailable && env.notificationPermissionGranted
       then some message else none
     vibratePattern :=
       if env.vibrateSupported then some [200, 100, 200, 100, 500]
       else none })

/-- The moisture classification performed by `processData`: with at least
two comma-separated parts the trimmed upper-cased second part is compared
against "WET" and "MIXED" with DRY as the default; otherwise the fallback
branch tests raw substring containment.  The `UNKNOWN` initialisation of
the `moisture` variable in the source is assigned over in both branches
and never survives. -/
def inferredMoisture (dataString : String) : MoistureStatus :=
  let parts := jsSplitComma dataString
  if 2 ≤ parts.length then
    let moistureStr := jsToUpperCase (jsTrim (parts.getD 1 ""))
    if moistureStr = "WET" then MoistureStatus.WET
    else if moistureStr = "MIXED" then MoistureStatus.MIXED
    else MoistureStatus.DRY
  else
    if jsIncludes dataString "WET" then MoistureStatus.WET
    else if jsIncludes dataString "MIXED" then MoistureStatus.MIXED
    else MoistureStatus.DRY

/-- The temperature computed by `processData`: `parseFloat(parts[0])` when
there are at least two parts, else `parseFloat(dataString) || 0`. -/
def parsedTemperature (dataString : String) : JSNum :=
  let parts := jsSplitComma dataString
  if 2 ≤ parts.length then parseFloat (parts.getD 0 "")
  else jsOrZero (parseFloat dataString)

/-- Result of one `processData` call: the next component state, whether
the alert path (`triggerNotification`) ran, and its side effects. -/
structure ProcessOut where
  state : AppState
  alertTriggered : Bool
  effects : Effects
  deriving DecidableEq, Repr

/-- The in-app alert message raised on a WET reading. -/
def wetAlertMessage : String :=
  "Excessive moisture detected! Silica gel is saturated."

/-- The core `processData` callback of src/App.tsx: parse the payload,
build the new reading, append it to the last-20 history, and set the
notification and polling cadence from the moisture status. -/
def processData (env : Env) (now : Nat) (dataString : String)
    (st : AppState) : ProcessOut :=
  let temp := parsedTemperature dataString
  let moisture := inferredMoisture dataString
  let newReading : Reading :=
    { id := toString now, timestamp := now,
      temperature := temp, moisture := moisture }
  let st1 : AppState :=
    { st with latestReading := some newReading
              readings := jsSliceLast20 (st.readings ++ [newReading]) }
  if moisture = MoistureStatus.WET then
    let p := triggerNotification env wetAlertMessage st1
    { state := { p.1 with nextUpdateIn := 30 },
      alertTriggered := true, effects := p.2 }
  else if moisture = MoistureStatus.MIXED then
    { state := { st1 with notification := none, nextUpdateIn := 120 },
      alertTriggered := false, effects := noEffects }
  else
    { state := { st1 with notification := none, nextUpdateIn := 300 },
      alertTriggered := false, effects := noEffects }

/-- The `gattserverdisconnected` handler `onDisconnected`. -/
def onDisconnected (st : AppState) : AppState :=
  { st with connectionStatus := ConnectionStatus.disconnected
            deviceRef := none
            characteristicRef := none
            notification := some "Device Disconnected" }

/-- The `toggleSimulation` handler. -/
def toggleSimulation (st : AppState) : AppState :=
  if st.isSimulationMode then
    { st with isSimulationMode := false
              connectionStatus := ConnectionStatus.disconnected
              readings := []
              latestReading := none }
  else
    { st with isSimulationMode := true
              connectionStatus := ConnectionStatus.connected
              nextUpdateIn := 1 }

/-- One tick of the polling interval: the updater passed to
`setNextUpdateIn` each second.  Returns the new countdown value and
whether `fetchReading` was invoked on this tick. -/
def tickTimer (prev : Int) : Int × Bool :=
  if prev ≤ 1 then (5, true) else (prev - 1, false)

/-! Helper lemmas about the JavaScript string models. -/

/-- A reading as `processData` builds it from the payload and the time. -/
def mkReading (now : Nat) (dataString : String) : Reading :=
  { id := toString now
    timestamp := now
    temperature := parsedTemperature dataString
    moisture := inferredMoisture dataString }

theorem mk_data (s : String) : String.mk s.data = s := rfl

theorem comma_data : (",").data = [','] := rfl

theorem toNat_ofNat_valid {n : Nat} (h : n.isValidChar) :
    (Char.ofNat n).toNat = n := by
  rw [Char.ofNat, dif_pos h]
  rfl

theorem isValidChar_of_lt {n : Nat} (h : n < 0xd800) : n.isValidChar :=
  Or.inl h

theorem Char.toUpper_toLower (c : Char) : c.toLower.toUpper = c.toUpper := by
  unfold Char.toLower Char.toUpper
  by_cases h : c.toNat ≥ 65 ∧ c.toNat ≤ 90
  · rw [if_pos h]
    have hv : (c.toNat + 32).isValidChar := isValidChar_of_lt (by omega)
    have ht : (Char.ofNat (c.toNat + 32)).toNat = c.toNat + 32 :=
      toNat_ofNat_valid hv
    rw [ht]
    rw [if_pos (by omega), if_neg (by omega)]
    have : c.toNat + 32 - 32 = c.toNat := by omega
    rw [this, Char.ofNat_toNat]
  · rw [if_neg h]

theorem Char.toUpper_toUpper (c : Char) : c.toUpper.toUpper = c.toUpper := by
  unfold Char.toUpper
  by_cases h : c.toNat ≥ 97 ∧ c.toNat ≤ 122
  · rw [if_pos h]
    have hv : (c.toNat - 32).isValidChar := isValidChar_of_lt (by omega)
    have ht : (Char.ofNat (c.toNat - 32)).toNat = c.toNat - 32 :=
      toNat_ofNat_valid hv
    rw [ht, if_neg (by omega)]
  · rw [if_neg h, if_neg h]

theorem splitCharList_of_not_mem {sep : Char} {l : List Char}
    (h : sep ∉ l) : splitCharList sep l = [l] := by
  induction l with
  | nil => rfl
  | cons c cs ih =>
    have hc : ¬c = sep := fun he => h (he ▸ List.mem_cons_self c cs)
    have hcs : sep ∉ cs := fun hm => h (List.mem_cons_of_mem c hm)
    simp only [splitCharList, ih hcs, if_neg hc]

theorem splitCharList_pair {sep : Char} {a b : List Char}
    (ha : sep ∉ a) (hb : sep ∉ b) :
    splitCharList sep (a ++ sep :: b) = [a, b] := by
  induction a with
  | nil =>
    simp only [List.nil_append, splitCharList, if_pos rfl,
      splitCharList_of_not_mem hb]
    simp
  | cons c cs ih =>
    have hc : ¬c = sep := fun he => ha (he ▸ List.mem_cons_self c cs)
    have hcs : sep ∉ cs := fun hm => ha (List.mem_cons_of_mem c hm)
    simp only [List.cons_append, splitCharList, List.append_eq, ih hcs,
      if_neg hc]

theorem jsSplitComma_pair {a b : String}
    (ha : ',' ∉ a.data) (hb : ',' ∉ b.data) :
    jsSplitComma (a ++ "," ++ b) = [a, b] := by
  unfold jsSplitComma
  have hdata : (a ++ "," ++ b).data = a.data ++ ',' :: b.data := by
    simp [String.data_append, comma_data]
  rw [hdata, splitCharList_pair ha hb]
  simp [mk_data]

theorem isJSWhitespace_comma_false : isJSWhitespace ',' = false := by decide

theorem ne_comma_of_isJSWhitespace {c : Char}
    (h : isJSWhitespace c = true) : c ≠ ',' := by
  intro he
  rw [he, isJSWhitespace_comma_false] at h
  exact Bool.noConfusion h

theorem dropWhile_append_of_all {p : Char → Bool} {w x : List Char}
    (h : ∀ c ∈ w, p c = true) :
    (w ++ x).dropWhile p = x.dropWhile p := by
  induction w with
  | nil => rfl
  | cons c cs ih =>
    simp only [List.cons_append, List.dropWhile_cons,
      h c (List.mem_cons_self c cs), if_true]
    exact ih fun d hd => h d (List.mem_cons_of_mem c hd)

theorem jsTrimList_pad {w1 w2 x : List Char}
    (hw1 : ∀ c ∈ w1, isJSWhitespace c = true)
    (hw2 : ∀ c ∈ w2, isJSWhitespace c = true) :
    jsTrimList (w1 ++ x ++ w2) = jsTrimList x := by
  unfold jsTrimList
  rw [List.append_assoc, dropWhile_append_of_all hw1, List.dropWhile_append]
  by_cases he : (x.dropWhile isJSWhitespace).isEmpty
  · rw [if_pos he]
    have hw2' : w2.dropWhile isJSWhitespace = [] :=
      List.dropWhile_eq_nil_iff.mpr hw2
    have hx : x.dropWhile isJSWhitespace = [] := List.isEmpty_iff.mp he
    rw [hw2', hx]
  · rw [if_neg he]
    rw [List.reverse_append, dropWhile_append_of_all
      (fun c hc => hw2 c (List.mem_reverse.mp hc))]

theorem char_eq_of_toNat_eq {c d : Char} (h : c.toNat = d.toNat) : c = d := by
  rw [← Char.ofNat_toNat c, h, Char.ofNat_toNat]

theorem isJSWhitespaceNat_false_of_letter {n : Nat}
    (h : (65 ≤ n ∧ n ≤ 90) ∨ (97 ≤ n ∧ n ≤ 122)) :
    isJSWhitespaceNat n = false := by
  simp only [isJSWhitespaceNat, Bool.or_eq_false_iff, Bool.and_eq_false_iff,
    beq_eq_false_iff_ne, ne_eq, decide_eq_false_iff_not]
  omega

theorem isJSWhitespace_toLower (c : Char) :
    isJSWhitespace c.toLower = isJSWhitespace c := by
  unfold Char.toLower
  by_cases h : c.toNat ≥ 65 ∧ c.toNat ≤ 90
  · rw [if_pos h]
    have hv : (c.toNat + 32).isValidChar := isValidChar_of_lt (by omega)
    unfold isJSWhitespace
    rw [toNat_ofNat_valid hv,
      isJSWhitespaceNat_false_of_letter (Or.inr (by omega)),
      isJSWhitespaceNat_false_of_letter (Or.inl (by omega))]
  · rw [if_neg h]

theorem isJSWhitespace_toUpper (c : Char) :
    isJSWhitespace c.toUpper = isJSWhitespace c := by
  unfold Char.toUpper
  by_cases h : c.toNat ≥ 97 ∧ c.toNat ≤ 122
  · rw [if_pos h]
    have hv : (c.toNat - 32).isValidChar := isValidChar_of_lt (by omega)
    unfold isJSWhitespace
    rw [toNat_ofNat_valid hv,
      isJSWhitespaceNat_false_of_letter (Or.inl (by omega)),
      isJSWhitespaceNat_false_of_letter (Or.inr (by omega))]
  · rw [if_neg h]

theorem toLower_ne_comma {c : Char} (h : c ≠ ',') : c.toLower ≠ ',' := by
  unfold Char.toLower
  by_cases hr : c.toNat ≥ 65 ∧ c.toNat ≤ 90
  · rw [if_pos hr]
    intro he
    have hv : (c.toNat + 32).isValidChar := isValidChar_of_lt (by omega)
    have := congrArg Char.toNat he
    rw [toNat_ofNat_valid hv] at this
    have hcomma : (',').toNat = 44 := rfl
    omega
  · rw [if_neg hr]; exact h

theorem toUpper_ne_comma {c : Char} (h : c ≠ ',') : c.toUpper ≠ ',' := by
  unfold Char.toUpper
  by_cases hr : c.toNat ≥ 97 ∧ c.toNat ≤ 122
  · rw [if_pos hr]
    intro he
    have hv : (c.toNat - 32).isValidChar := isValidChar_of_lt (by omega)
    have := congrArg Char.toNat he
    rw [toNat_ofNat_valid hv] at this
    have hcomma : (',').toNat = 44 := rfl
    omega
  · rw [if_neg hr]; exact h

theorem dropWhile_map_congr {p : Char → Bool} {g : Char → Char}
    {l : List Char} (h : ∀ c ∈ l, p (g c) = p c) :
    (l.map g).dropWhile p = (l.dropWhile p).map g := by
  induction l with
  | nil => rfl
  | cons c cs ih =>
    simp only [List.map_cons, List.dropWhile_cons,
      h c (List.mem_cons_self c cs)]
    by_cases hc : p c = true
    · rw [if_pos hc, if_pos hc]
      exact ih fun d hd => h d (List.mem_cons_of_mem c hd)
    · rw [if_neg hc, if_neg hc, List.map_cons]

theorem jsTrimList_map_congr {g : Char → Char} {l : List Char}
    (h : ∀ c ∈ l, isJSWhitespace (g c) = isJSWhitespace c) :
    jsTrimList (l.map g) = (jsTrimList l).map g := by
  unfold jsTrimList
  rw [dropWhile_map_congr h, ← List.map_reverse,
    dropWhile_map_congr (fun c hc => h c
      ((List.dropWhile_sublist isJSWhitespace).mem (List.mem_reverse.mp hc))),
    ← List.map_reverse]

theorem processData_latest (env : Env) (now : Nat) (s : String)
    (st : AppState) :
    (processData env now s st).state.latestReading = some (mkReading now s) := by
  simp only [processData, triggerNotification, mkReading]
  split
  · rfl
  · split
    · rfl
    · rfl

theorem processData_readings (env : Env) (now : Nat) (s : String)
    (st : AppState) :
    (processData env now s st).state.readings =
      jsSliceLast20 (st.readings ++ [mkReading now s]) := by
  simp only [processData, triggerNotification, mkReading]
  split
  · rfl
  · split
    · rfl
    · rfl

theorem processData_nextUpdateIn (env : Env) (now : Nat) (s : String)
    (st : AppState) :
    (processData env now s st).state.nextUpdateIn =
      (match inferredMoisture s with
       | MoistureStatus.WET => 30
       | MoistureStatus.MIXED => 120
       | _ => 300) := by
  simp only [processData, triggerNotification]
  cases h : inferredMoisture s <;> simp [h]

theorem processData_alert (env : Env) (now : Nat) (s : String)
    (st : AppState) :
    (processData env now s st).alertTriggered =
      (inferredMoisture s = MoistureStatus.WET : Bool) := by
  simp only [processData, triggerNotification]
  cases h : inferredMoisture s <;> simp [h]

theorem processData_notification_wet (env : Env) (now : Nat) (s : String)
    (st : AppState) (h : inferredMoisture s = MoistureStatus.WET) :
    (processData env now s st).state.notification = some wetAlertMessage ∧
    (processData env now s st).effects =
      { osNotification :=
          if env.notificationApiAvailable && env.notificationPermissionGranted
          then some wetAlertMessage else none
        vibratePattern :=
          if env.vibrateSupported then some [200, 100, 200, 100, 500]
          else none } := by
  simp only [processData, triggerNotification, h]
  exact ⟨rfl, rfl⟩

theorem processData_notification_not_wet (env : Env) (now : Nat) (s : String)
    (st : AppState) (h : ¬inferredMoisture s = MoistureStatus.WET) :
    (processData env now s st).state.notification = none ∧
    (processData env now s st).effects = noEffects := by
  simp only [processData, triggerNotification, if_neg h]
  split
  · exact ⟨rfl, rfl⟩
  · exact ⟨rfl, rfl⟩

/-! Claim theorems. -/

/-- C1: for every payload that splits on a comma into at least two parts,
`processData` produces a reading whose temperature is the parsed float of
the first part, and whose moisture status is WET when the trimmed,
upper-cased second part equals "WET", MIXED when it equals "MIXED", and
DRY for every other second part. -/
theorem C1_reading_parse (env : Env) (now : Nat) (st : AppState)
    (s : String) (h : 2 ≤ (jsSplitComma s).length) :
    ∃ r : Reading,
      (processData env now s st).state.latestReading = some r ∧
      r.temperature = parseFloat ((jsSplitComma s).getD 0 "") ∧
      r.moisture =
        (if jsToUpperCase (jsTrim ((jsSplitComma s).getD 1 "")) = "WET" then
          MoistureStatus.WET
        else if jsToUpperCase (jsTrim ((jsSplitComma s).getD 1 "")) = "MIXED"
          then MoistureStatus.MIXED
        else MoistureStatus.DRY) := by
  refine ⟨mkReading now s, processData_latest env now s st, ?_, ?_⟩
  · show parsedTemperature s = _
    simp only [parsedTemperature]
    rw [if_pos h]
  · show inferredMoisture s = _
    simp only [inferredMoisture]
    rw [if_pos h]

/-- Witness for C1 at the payload "37.5, wet". -/
theorem C1_reading_parse_witness :
    2 ≤ (jsSplitComma "37.5, wet").length ∧
    (∃ r : Reading,
      (processData fullEnv 0 "37.5, wet" initialState).state.latestReading =
        some r ∧
      r.temperature = parseFloat ((jsSplitComma "37.5, wet").getD 0 "") ∧
      r.moisture =
        (if jsToUpperCase (jsTrim ((jsSplitComma "37.5, wet").getD 1 "")) =
            "WET" then MoistureStatus.WET
        else if jsToUpperCase (jsTrim ((jsSplitComma "37.5, wet").getD 1 ""))
            = "MIXED" then MoistureStatus.MIXED
        else MoistureStatus.DRY)) :=
  ⟨by decide, C1_reading_parse fullEnv 0 initialState "37.5, wet" (by decide)⟩

/-- The fixed cadence table of the specification: seconds until the next
read, keyed by moisture status (WET 30, MIXED 120, otherwise 300). -/
def specCadenceTable : MoistureStatus → Int
  | MoistureStatus.WET => 30
  | MoistureStatus.MIXED => 120
  | _ => 300

/-- C2: after every `processData` call the polling cadence equals the
fixed table value keyed by the produced reading's moisture status. -/
theorem C2_polling_cadence (env : Env) (now : Nat) (st : AppState)
    (s : String) :
    ∃ r : Reading,
      (processData env now s st).state.latestReading = some r ∧
      (processData env now s st).state.nextUpdateIn =
        specCadenceTable r.moisture := by
  refine ⟨mkReading now s, processData_latest env now s st, ?_⟩
  rw [processData_nextUpdateIn]
  show _ = specCadenceTable (inferredMoisture s)
  cases h : inferredMoisture s <;> simp [specCadenceTable]

/-- C3: `processData` raises the alert via `triggerNotification` (in-app
banner, OS notification when available and permitted, haptics when
supported) exactly when the reading's moisture status is WET, and clears
the in-app notification to null for every MIXED or DRY reading. -/
theorem C3_alert_iff_wet (env : Env) (now : Nat) (st : AppState)
    (s : String) :
    ∃ r : Reading,
      (processData env now s st).state.latestReading = some r ∧
      ((processData env now s st).alertTriggered = true ↔
        r.moisture = MoistureStatus.WET) ∧
      (r.moisture = MoistureStatus.WET →
        (processData env now s st).state.notification = some wetAlertMessage ∧
        (env.notificationApiAvailable = true →
          env.notificationPermissionGranted = true →
          (processData env now s st).effects.osNotification =
            some wetAlertMessage) ∧
        (env.vibrateSupported = true →
          (processData env now s st).effects.vibratePattern =
            some [200, 100, 200, 100, 500])) ∧
      (r.moisture ≠ MoistureStatus.WET →
        (processData env now s st).state.notification = none ∧
        (processData env now s st).effects = noEffects) := by
  refine ⟨mkReading now s, processData_latest env now s st, ?_, ?_, ?_⟩
  · rw [processData_alert]
    show decide (inferredMoisture s = MoistureStatus.WET) = true ↔
      (mkReading now s).moisture = MoistureStatus.WET
    simp [mkReading]
  · intro h
    obtain ⟨h1, h2⟩ := processData_notification_wet env now s st h
    refine ⟨h1, ?_, ?_⟩
    · intro ha hp
      rw [h2]
      simp [ha, hp]
    · intro hv
      rw [h2]
      simp [hv]
  · intro h
    exact processData_notification_not_wet env now s st h

/-- Witness for C3 at a WET payload and a DRY payload. -/
theorem C3_alert_iff_wet_witness :
    (processData fullEnv 0 "1,WET" initialState).state.notification =
      some wetAlertMessage ∧
    (processData fullEnv 0 "1,DRY" initialState).state.notification = none := by
  constructor
  · obtain ⟨r, hr, _, hwet, _⟩ := C3_alert_iff_wet fullEnv 0 initialState "1,WET"
    have hr' : r = mkReading 0 "1,WET" := by
      have : some (mkReading 0 "1,WET") = some r := by
        rw [← hr, processData_latest]
      exact (Option.some.injEq _ _ ▸ this).symm
    exact (hwet (by rw [hr']; decide)).1
  · obtain ⟨r, hr, _, _, hdry⟩ := C3_alert_iff_wet fullEnv 0 initialState "1,DRY"
    have hr' : r = mkReading 0 "1,DRY" := by
      have : some (mkReading 0 "1,DRY") = some r := by
        rw [← hr, processData_latest]
      exact (Option.some.injEq _ _ ▸ this).symm
    exact (hdry (by rw [hr']; decide)).1

/-- C4: after every `processData` call the history holds at most 20
readings, is a most-recent suffix of the previous history plus the new
reading (arrival order), ends with the reading just produced, appends
without loss while below capacity, and drops exactly the oldest entry
when the buffer was full. -/
theorem C4_history_buffer (env : Env) (now : Nat) (st : AppState)
    (s : String) :
    ∃ r : Reading,
      (processData env now s st).state.latestReading = some r ∧
      (processData env now s st).state.readings.length ≤ 20 ∧
      (processData env now s st).state.readings.getLast? = some r ∧
      (processData env now s st).state.readings <:+ st.readings ++ [r] ∧
      (st.readings.length < 20 →
        (processData env now s st).state.readings = st.readings ++ [r]) ∧
      (st.readings.length = 20 →
        (processData env now s st).state.readings =
          st.readings.tail ++ [r]) := by
  refine ⟨mkReading now s, processData_latest env now s st, ?_, ?_, ?_, ?_, ?_⟩
    <;> rw [processData_readings]
  · unfold jsSliceLast20
    rw [List.length_drop]
    omega
  · unfold jsSliceLast20
    rw [List.drop_append_of_le_length (by simp)]
    exact List.getLast?_concat _
  · exact List.drop_suffix _ _
  · intro h
    unfold jsSliceLast20
    have hz : (st.readings ++ [mkReading now s]).length - 20 = 0 := by
      simp
      omega
    rw [hz, List.drop_zero]
  · intro h
    unfold jsSliceLast20
    have ho : (st.readings ++ [mkReading now s]).length - 20 = 1 := by
      simp [h]
    rw [ho, List.drop_append_of_le_length (by omega), List.drop_one]

/-- Witness for C4: a full buffer of 20 readings drops its oldest entry. -/
theorem C4_history_buffer_witness :
    (List.replicate 20 (mkReading 0 "1,DRY")).length = 20 ∧
    (∃ r : Reading,
      (processData fullEnv 0 "2,DRY"
        { initialState with
            readings := List.replicate 20 (mkReading 0 "1,DRY") }
       ).state.latestReading = some r ∧
      (processData fullEnv 0 "2,DRY"
        { initialState with
            readings := List.replicate 20 (mkReading 0 "1,DRY") }
       ).state.readings =
        (List.replicate 20 (mkReading 0 "1,DRY")).tail ++ [r]) := by
  refine ⟨by decide, ?_⟩
  obtain ⟨r, hr, _, _, _, _, hfull⟩ := C4_history_buffer fullEnv 0
    { initialState with
        readings := List.replicate 20 (mkReading 0 "1,DRY") } "2,DRY"
  exact ⟨r, hr, hfull (by decide)⟩

/-- Every payload is classified WET, MIXED or DRY: the UNKNOWN
initialisation of the moisture variable is overwritten in both branches
of `processData`. -/
theorem inferredMoisture_cases (s : String) :
    inferredMoisture s = MoistureStatus.WET ∨
    inferredMoisture s = MoistureStatus.MIXED ∨
    inferredMoisture s = MoistureStatus.DRY := by
  simp only [inferredMoisture]
  split
  · split
    · exact Or.inl rfl
    · split
      · exact Or.inr (Or.inl rfl)
      · exact Or.inr (Or.inr rfl)
  · split
    · exact Or.inl rfl
    · split
      · exact Or.inr (Or.inl rfl)
      · exact Or.inr (Or.inr rfl)

/-- C5 counterexample: no input payload is ever classified UNKNOWN by the
parser, refuting the claim that each of the four statuses (UNKNOWN in
particular) is inferred from some payload. -/
theorem C5_counterexample :
    ¬∃ s : String, inferredMoisture s = MoistureStatus.UNKNOWN := by
  rintro ⟨s, h⟩
  rcases inferredMoisture_cases s with h' | h' | h' <;> rw [h'] at h <;>
    exact MoistureStatus.noConfusion h

/-- C5 (amended): the moisture status space of the app has exactly the
four values DRY, WET, MIXED and UNKNOWN; DRY, WET and MIXED are each the
inferred status of some payload's second field, and no payload is ever
classified UNKNOWN (it is only the pre-parse initial value). -/
theorem C5_amended_status_space :
    (∀ m : MoistureStatus,
      m = MoistureStatus.DRY ∨ m = MoistureStatus.WET ∨
      m = MoistureStatus.MIXED ∨ m = MoistureStatus.UNKNOWN) ∧
    inferredMoisture "1,DRY" = MoistureStatus.DRY ∧
    inferredMoisture "1,WET" = MoistureStatus.WET ∧
    inferredMoisture "1,MIXED" = MoistureStatus.MIXED ∧
    (∀ s : String,
      inferredMoisture s = MoistureStatus.WET ∨
      inferredMoisture s = MoistureStatus.MIXED ∨
      inferredMoisture s = MoistureStatus.DRY) :=
  ⟨fun m => by cases m <;> simp, by decide, by decide, by decide,
   inferredMoisture_cases⟩

/-- C6: on each timer tick, a countdown above 1 decreases by exactly one
without reading; a read is triggered exactly on ticks where the countdown
is at most 1, and the countdown is then reset to 5. -/
theorem C6_timer_tick (p : Int) :
    (1 < p → tickTimer p = (p - 1, false)) ∧
    ((tickTimer p).2 = true ↔ p ≤ 1) ∧
    (p ≤ 1 → tickTimer p = (5, true)) := by
  unfold tickTimer
  by_cases h : p ≤ 1
  · rw [if_pos h]
    exact ⟨fun hgt => absurd h (by omega), ⟨fun _ => h, fun _ => rfl⟩,
      fun _ => rfl⟩
  · rw [if_neg h]
    exact ⟨fun _ => rfl, ⟨fun hf => Bool.noConfusion hf,
      fun hle => absurd hle h⟩, fun hle => absurd hle h⟩

/-- Witness for C6 at countdown values 3 and 1. -/
theorem C6_timer_tick_witness :
    tickTimer 3 = (2, false) ∧ tickTimer 1 = (5, true) :=
  ⟨(C6_timer_tick 3).1 (by norm_num), (C6_timer_tick 1).2.2 (by norm_num)⟩

/-- C7: on the disconnect event the connection status becomes
disconnected, both Bluetooth refs are cleared to null, and the
notification is set to the disconnect message. -/
theorem C7_disconnect_teardown (st : AppState) :
    (onDisconnected st).connectionStatus = ConnectionStatus.disconnected ∧
    (onDisconnected st).deviceRef = none ∧
    (onDisconnected st).characteristicRef = none ∧
    (onDisconnected st).notification = some "Device Disconnected" :=
  ⟨rfl, rfl, rfl, rfl⟩

/-- C10: toggling simulation off disconnects, empties the history and
clears the latest reading while leaving the countdown unchanged; toggling
it on connects and sets the countdown to 1 while leaving the history and
latest reading unchanged. -/
theorem C10_toggle_simulation (st : AppState) :
    (st.isSimulationMode = true →
      (toggleSimulation st).isSimulationMode = false ∧
      (toggleSimulation st).connectionStatus =
        ConnectionStatus.disconnected ∧
      (toggleSimulation st).readings = [] ∧
      (toggleSimulation st).latestReading = none ∧
      (toggleSimulation st).nextUpdateIn = st.nextUpdateIn) ∧
    (st.isSimulationMode = false →
      (toggleSimulation st).isSimulationMode = true ∧
      (toggleSimulation st).connectionStatus = ConnectionStatus.connected ∧
      (toggleSimulation st).nextUpdateIn = 1 ∧
      (toggleSimulation st).readings = st.readings ∧
      (toggleSimulation st).latestReading = st.latestReading) := by
  unfold toggleSimulation
  by_cases h : st.isSimulationMode = true <;> simp [h]

/-- Witness for C10: toggling on from the initial state, then off. -/
theorem C10_toggle_simulation_witness :
    (toggleSimulation initialState).connectionStatus =
      ConnectionStatus.connected ∧
    (toggleSimulation (toggleSimulation initialState)).readings = [] :=
  ⟨((C10_toggle_simulation initialState).2 rfl).2.1,
   ((C10_toggle_simulation (toggleSimulation initialState)).1 rfl).2.2.1⟩

/-- C8: `processData` is total — every input string yields a reading —
and on strings with fewer than two comma-separated parts the temperature
is `parseFloat` of the whole string with NaN replaced by 0, and the
moisture is WET when the raw string contains "WET", MIXED when it
contains "MIXED", and DRY otherwise. -/
theorem C8_total_fallback (env : Env) (now : Nat) (st : AppState)
    (s : String) :
    (∃ r : Reading,
      (processData env now s st).state.latestReading = some r) ∧
    ((jsSplitComma s).length < 2 →
      ∃ r : Reading,
        (processData env now s st).state.latestReading = some r ∧
        r.temperature = jsOrZero (parseFloat s) ∧
        r.moisture =
          (if jsIncludes s "WET" then MoistureStatus.WET
          else if jsIncludes s "MIXED" then MoistureStatus.MIXED
          else MoistureStatus.DRY)) := by
  refine ⟨⟨mkReading now s, processData_latest env now s st⟩, fun h =>
    ⟨mkReading now s, processData_latest env now s st, ?_, ?_⟩⟩
  · show parsedTemperature s = _
    simp only [parsedTemperature]
    rw [if_neg (by omega)]
  · show inferredMoisture s = _
    simp only [inferredMoisture]
    rw [if_neg (by omega)]

/-- Witness for C8 at the comma-free payload "WET!". -/
theorem C8_total_fallback_witness :
    (jsSplitComma "WET!").length < 2 ∧
    (∃ r : Reading,
      (processData fullEnv 0 "WET!" initialState).state.latestReading =
        some r ∧
      r.temperature = jsOrZero (parseFloat "WET!") ∧
      r.moisture =
        (if jsIncludes "WET!" "WET" then MoistureStatus.WET
        else if jsIncludes "WET!" "MIXED" then MoistureStatus.MIXED
        else MoistureStatus.DRY)) :=
  ⟨by decide,
   (C8_total_fallback fullEnv 0 initialState "WET!").2 (by decide)⟩

theorem mem_of_mem_jsTrimList {c : Char} {l : List Char}
    (h : c ∈ jsTrimList l) : c ∈ l := by
  unfold jsTrimList at h
  have h1 := List.mem_reverse.mp h
  have h2 := List.Sublist.mem h1 (List.dropWhile_sublist _)
  have h3 := List.mem_reverse.mp h2
  exact List.Sublist.mem h3 (List.dropWhile_sublist _)

theorem map_toUpper_of_case_change {g : Char → Char} {l : List Char}
    (hg : ∀ c ∈ l, g c = c ∨ g c = c.toLower ∨ g c = c.toUpper) :
    (l.map g).map Char.toUpper = l.map Char.toUpper := by
  induction l with
  | nil => rfl
  | cons c cs ih =>
    simp only [List.map_cons]
    congr 1
    · rcases hg c (List.mem_cons_self c cs) with h | h | h
      · rw [h]
      · rw [h, Char.toUpper_toLower]
      · rw [h, Char.toUpper_toUpper]
    · exact ih fun d hd => hg d (List.mem_cons_of_mem c hd)

theorem isJSWhitespace_of_case_change {g : Char → Char} {l : List Char}
    (hg : ∀ c ∈ l, g c = c ∨ g c = c.toLower ∨ g c = c.toUpper) :
    ∀ c ∈ l, isJSWhitespace (g c) = isJSWhitespace c := by
  intro c hc
  rcases hg c hc with h | h | h
  · rw [h]
  · rw [h, isJSWhitespace_toLower]
  · rw [h, isJSWhitespace_toUpper]

theorem not_comma_of_case_change {g : Char → Char} {l : List Char}
    (hg : ∀ c ∈ l, g c = c ∨ g c = c.toLower ∨ g c = c.toUpper)
    (hl : ',' ∉ l) : ',' ∉ l.map g := by
  intro hmem
  obtain ⟨c, hc, hgc⟩ := List.mem_map.mp hmem
  have hcne : c ≠ ',' := fun he => hl (he ▸ hc)
  rcases hg c hc with h | h | h
  · exact hcne (h ▸ hgc)
  · exact toLower_ne_comma hcne (h ▸ hgc)
  · exact toUpper_ne_comma hcne (h ▸ hgc)

theorem inferredMoisture_pair {a b : String}
    (ha : ',' ∉ a.data) (hb : ',' ∉ b.data) :
    inferredMoisture (a ++ "," ++ b) =
      (if jsToUpperCase (jsTrim b) = "WET" then MoistureStatus.WET
      else if jsToUpperCase (jsTrim b) = "MIXED" then MoistureStatus.MIXED
      else MoistureStatus.DRY) := by
  simp only [inferredMoisture, jsSplitComma_pair ha hb]
  rfl

/-- C9: for comma-free temperature part `t` and status token `m`, the
moisture classification of `t,m` is unchanged when the token's letters
change case (each character replaced by itself, its lower-case, or its
upper-case form) and when whitespace is added around the token. -/
theorem C9_classification_invariance (t m w1 w2 : String) (g : Char → Char)
    (ht : ',' ∉ t.data) (hm : ',' ∉ m.data)
    (hg : ∀ c ∈ m.data, g c = c ∨ g c = c.toLower ∨ g c = c.toUpper)
    (hw1 : ∀ c ∈ w1.data, isJSWhitespace c = true)
    (hw2 : ∀ c ∈ w2.data, isJSWhitespace c = true) :
    inferredMoisture (t ++ "," ++ (w1 ++ String.mk (m.data.map g) ++ w2)) =
      inferredMoisture (t ++ "," ++ m) := by
  have hgm : ',' ∉ m.data.map g := not_comma_of_case_change hg hm
  have hy : ',' ∉ (w1 ++ String.mk (m.data.map g) ++ w2).data := by
    simp only [String.data_append]
    intro hmem
    rcases List.mem_append.mp hmem with h | h
    · rcases List.mem_append.mp h with h' | h'
      · exact ne_comma_of_isJSWhitespace (hw1 _ h') rfl
      · exact hgm h'
    · exact ne_comma_of_isJSWhitespace (hw2 _ h) rfl
  rw [inferredMoisture_pair ht hy, inferredMoisture_pair ht hm]
  have htrim : jsTrimList (w1 ++ String.mk (m.data.map g) ++ w2).data =
      (jsTrimList m.data).map g := by
    have hdata : (w1 ++ String.mk (m.data.map g) ++ w2).data =
        w1.data ++ m.data.map g ++ w2.data := by
      simp [String.data_append]
    rw [hdata, jsTrimList_pad hw1 hw2,
      jsTrimList_map_congr (isJSWhitespace_of_case_change hg)]
  have htok : jsToUpperCase (jsTrim (w1 ++ String.mk (m.data.map g) ++ w2)) =
      jsToUpperCase (jsTrim m) := by
    show String.mk
        ((jsTrimList (w1 ++ String.mk (m.data.map g) ++ w2).data).map
          Char.toUpper) =
      String.mk ((jsTrimList m.data).map Char.toUpper)
    rw [htrim]
    exact congrArg String.mk (map_toUpper_of_case_change
      fun c hc => hg c (mem_of_mem_jsTrimList hc))
  rw [htok]

/-- Witness for C9: the token "wet" upper-cased and padded with a space
classifies the same as the bare token. -/
theorem C9_classification_invariance_witness :
    (',' ∉ ("37.5").data) ∧ (',' ∉ ("wet").data) ∧
    inferredMoisture
        ("37.5" ++ "," ++
          (" " ++ String.mk (("wet").data.map Char.toUpper) ++ "")) =
      inferredMoisture ("37.5" ++ "," ++ "wet") :=
  ⟨by decide, by decide,
   C9_classification_invariance "37.5" "wet" " " "" Char.toUpper (by decide)
     (by decide) (fun c _ => Or.inr (Or.inr rfl)) (by decide) (by decide)⟩
